import Mathlib

/-!
Shallow embedding of the Dapbase table engine (dapbase.connection.js).

Modelling conventions, used throughout:
- JavaScript field values are modelled by the inductive type Value; an absent
  field (undefined) is modelled by Option.none wherever a lookup can miss.
- JavaScript numbers are modelled by Int.  The engine and all claims only
  exercise integral values; fractional literals would fail the integer type
  validator exactly as they do in the model.
- The filesystem is modelled by an association list from table name to the
  parsed table unit; reading a missing file surfaces as the distinguished
  error DbError.enoent, while explicitly thrown errors are DbError.err and a
  schema-validation throw is DbError.validation carrying the accumulated
  message list (the runtime joins them with a newline into one Error).
- Nondeterministic inputs of an operation (the generated UUID, the current
  timestamp) and unembeddable primitives (the AES cipher, JSON serialization,
  regular-expression matching, date parsing) are passed in through the Env
  record; claim theorems that depend on cipher behaviour take the needed
  cipher equations as explicit hypotheses.
- Strict equality (===) on primitives is structural; on objects and arrays it
  is reference equality, and two separately constructed objects are never
  identical, so the model compares object-shaped values as unequal.
-/

namespace Dapbase

/-- A JavaScript value as stored in a row field. -/
inductive Value where
  | str : String → Value
  | int : Int → Value
  | bool : Bool → Value
  | null : Value
  | enc : String → Value
  | obj : List (String × Value) → Value
  | arr : List Value → Value

/-- Strict equality (===): structural on primitives, reference-style (never
true) on distinct object-shaped values. -/
def veq : Value → Value → Bool
  | .str a, .str b => a == b
  | .int a, .int b => a == b
  | .bool a, .bool b => a == b
  | .null, .null => true
  | _, _ => false

instance : BEq Value := ⟨veq⟩

/-- Strict equality lifted to possibly-undefined values; undefined === undefined
holds in JavaScript, which Option.beq mirrors. -/
def oveq (a b : Option Value) : Bool := a == b

/-- A row is an ordered mapping of field name to value, as a JavaScript object. -/
abbrev Row := List (String × Value)

/-- Read a field; none models undefined. -/
def getField (r : Row) (c : String) : Option Value := r.lookup c

/-- Set a field the way JavaScript object assignment does: replace the first
occurrence in place, otherwise append at the end. -/
def setAssoc {α : Type} : List (String × α) → String → α → List (String × α)
  | [], c, v => [(c, v)]
  | (k, w) :: rest, c, v =>
      if k = c then (k, v) :: rest else (k, w) :: setAssoc rest c v

def setField (r : Row) (c : String) (v : Value) : Row := setAssoc r c v

/-- Remove a field, as the JavaScript delete operator. -/
def removeField : Row → String → Row
  | [], _ => []
  | (k, w) :: rest, c => if k = c then rest else (k, w) :: removeField rest c

/-- The typeof operator restricted to the modelled values. -/
def jsTypeof : Value → String
  | .str _ => "string"
  | .int _ => "number"
  | .bool _ => "boolean"
  | .null => "object"
  | .enc _ => "object"
  | .obj _ => "object"
  | .arr _ => "object"

mutual

/-- String(value) coercion. -/
def jsToString : Value → String
  | .str s => s
  | .int n => toString n
  | .bool b => cond b "true" "false"
  | .null => "null"
  | .enc _ => "[object Object]"
  | .obj _ => "[object Object]"
  | .arr vs => String.intercalate "," (jsToStringList vs)

/-- Array elements join with a comma; null and undefined elements print empty. -/
def jsToStringList : List Value → List String
  | [] => []
  | .null :: rest => "" :: jsToStringList rest
  | v :: rest => jsToString v :: jsToStringList rest

end

/-- Number(value) coercion; none models NaN.  Fractional and exotic numeric
strings are outside the modelled integer fragment and coerce to NaN. -/
def toNumber : Value → Option Int
  | .int n => some n
  | .bool b => some (cond b 1 0)
  | .null => some 0
  | .str s => let t := s.trim; if t = "" then some 0 else t.toInt?
  | .enc _ => none
  | .obj _ => none
  | .arr _ => none

/-- The abstract relational comparison a < b: lexicographic when both operands
are strings, otherwise numeric with NaN making the comparison false. -/
def jsLt (a b : Value) : Bool :=
  match a, b with
  | .str x, .str y => decide (x < y)
  | _, _ =>
      match toNumber a, toNumber b with
      | some x, some y => decide (x < y)
      | _, _ => false

/-- The comparison a <= b under the same coercions. -/
def jsLe (a b : Value) : Bool :=
  match a, b with
  | .str x, .str y => decide (x ≤ y)
  | _, _ =>
      match toNumber a, toNumber b with
      | some x, some y => decide (x ≤ y)
      | _, _ => false

/-- value < bound for a numeric schema bound. -/
def jsLtNum (v : Value) (m : Int) : Bool :=
  match toNumber v with
  | some n => decide (n < m)
  | none => false

/-- value > bound for a numeric schema bound. -/
def jsGtNum (v : Value) (m : Int) : Bool :=
  match toNumber v with
  | some n => decide (m < n)
  | none => false

/-- Truthiness of a possibly-undefined value. -/
def jsTruthy : Option Value → Bool
  | none => false
  | some .null => false
  | some (.str s) => s ≠ ""
  | some (.int n) => n ≠ 0
  | some (.bool b) => b
  | some (.enc _) => true
  | some (.obj _) => true
  | some (.arr _) => true

/-- Hexadecimal digit test for the UUID pattern. -/
def isHexChar (c : Char) : Bool :=
  c.isDigit || (c ≥ 'a' && c ≤ 'f') || (c ≥ 'A' && c ≤ 'F')

/-- The canonical 8-4-4-4-12 UUID pattern, case-insensitive. -/
def isUuid (s : String) : Bool :=
  let cs := s.toList
  cs.length == 36 &&
    (List.range 36).all (fun i =>
      let c := cs.getD i ' '
      if i == 8 || i == 13 || i == 18 || i == 23 then c == '-' else isHexChar c)

/-- A column definition as normalized by createTable.  Absent constraints are
none / false, matching falsy reads of missing object properties.  The pattern
constraint carries both the source text of the regular expression (used in the
violation message) and its matcher as an abstract predicate, since regular
expression semantics are not embedded.  A function-valued default is modelled
by the value it produces when invoked at validation time. -/
structure ColumnDef where
  type : Option String := none
  required : Bool := false
  unique : Bool := false
  min : Option Int := none
  max : Option Int := none
  minLength : Option Nat := none
  maxLength : Option Nat := none
  pattern : Option (String × (String → Bool)) := none
  dflt : Option Value := none

abbrev Schema := List (String × ColumnDef)

/-- A relationship entry: local field maps to a foreign table and key. -/
structure Rel where
  foreignTable : String
  foreignKey : String

/-- An index definition as stored in the table unit. -/
structure IndexDef where
  itype : String
  unique : Bool
  createdAt : String
  data : Option (List (String × List Nat)) := none

/-- Per-table encryption options. -/
structure EncOpts where
  key : Option String := none
  fields : Option (List String) := none

/-- Stored table options. -/
structure TableOptions where
  encryption : EncOpts := {}
  timestamps : Bool := true

/-- The persisted table unit. -/
structure TableData where
  name : String
  createdAt : String
  columns : Schema
  relationships : List (String × Rel)
  rows : List Row
  indexes : List (String × IndexDef)
  options : TableOptions

/-- The current database directory: table name to parsed unit. -/
abbrev Database := List (String × TableData)

/-- Environment threading the per-call nondeterminism and the primitives that
cannot be shallowly embedded (cipher, JSON codec, regexp, date parsing). -/
structure Env where
  encS : String → String → String
  decS : String → String → Option String
  stringifyS : Value → String
  parseS : String → Option Value
  regexTest : String → String → Bool
  dateParse : String → Bool
  genId : String
  now : String

/-- The per-type predicates of validators.types; an unknown type tag has no
validator and the check is skipped. -/
def typeValidatorFor (env : Env) (ty : String) : Option (Value → Bool) :=
  if ty = "text" ∨ ty = "string" then
    some (fun v => jsTypeof v == "string")
  else if ty = "int" ∨ ty = "integer" then
    some (fun v => (toNumber v).isSome)
  else if ty = "float" ∨ ty = "number" then
    some (fun v => (toNumber v).isSome)
  else if ty = "boolean" then
    some (fun v =>
      (match v with | .bool _ => true | _ => false) ||
      ["true", "false", "1", "0"].contains (jsToString v))
  else if ty = "uuid" then
    some (fun v => isUuid (jsToString v))
  else if ty = "timestamp" ∨ ty = "date" then
    some (fun v => env.dateParse (jsToString v))
  else if ty = "json" then
    some (fun v => (env.parseS (jsToString v)).isSome)
  else none

/-- Violation message for a failed type check. -/
def typeMsg (col ty : String) (v : Value) : String :=
  "Column \"" ++ col ++ "\": Expected type \"" ++ ty ++ "\", got \"" ++ jsTypeof v ++ "\""

def requiredMsg (col : String) : String :=
  "Column \"" ++ col ++ "\" is required"

def uniqueMsg (col : String) (v : Value) : String :=
  "Column \"" ++ col ++ "\" must be unique. Value \"" ++ jsToString v ++ "\" already exists"

def minMsg (col : String) (v : Value) (m : Int) : String :=
  "Column \"" ++ col ++ "\": Value " ++ jsToString v ++ " is less than minimum " ++ toString m

def maxMsg (col : String) (v : Value) (m : Int) : String :=
  "Column \"" ++ col ++ "\": Value " ++ jsToString v ++ " exceeds maximum " ++ toString m

def minLengthMsg (col : String) (len m : Nat) : String :=
  "Column \"" ++ col ++ "\": Length " ++ toString len ++ " is less than minimum " ++ toString m

def maxLengthMsg (col : String) (len m : Nat) : String :=
  "Column \"" ++ col ++ "\": Length " ++ toString len ++ " exceeds maximum " ++ toString m

def patternMsg (col : String) (v : Value) (src : String) : String :=
  "Column \"" ++ col ++ "\": Value \"" ++ jsToString v ++ "\" doesn\x27t match pattern \"" ++ src ++ "\""

def extraFieldMsg (f : String) : String :=
  "Field \"" ++ f ++ "\" is not defined in schema"

/-- Type validation: runs when a type tag is declared and the value is neither
undefined nor null. -/
def typeCheckErrors (env : Env) (col : String) (d : ColumnDef) (value : Option Value) : List String :=
  match d.type, value with
  | some ty, some v =>
      match v with
      | .null => []
      | _ =>
          match typeValidatorFor env ty with
          | none => []
          | some p => if p v then [] else [typeMsg col ty v]
  | _, _ => []

/-- Required constraint: undefined and null both violate. -/
def requiredCheckErrors (col : String) (d : ColumnDef) (value : Option Value) : List String :=
  if d.required then
    match value with
    | none => [requiredMsg col]
    | some .null => [requiredMsg col]
    | some _ => []
  else []

/-- Unique constraint: fires only for a present non-null value that already
appears among the existing values while the row is new. -/
def uniqueCheckErrors (col : String) (d : ColumnDef) (value : Option Value)
    (existingValues : List (Option Value)) (isNew : Bool) : List String :=
  match value with
  | some v =>
      match v with
      | .null => []
      | _ =>
          if d.unique && existingValues.contains (some v) && isNew then [uniqueMsg col v]
          else []
  | none => []

def minCheckErrors (col : String) (d : ColumnDef) (value : Option Value) : List String :=
  match d.min, value with
  | some m, some v =>
      match v with
      | .null => []
      | _ => if jsLtNum v m then [minMsg col v m] else []
  | _, _ => []

def maxCheckErrors (col : String) (d : ColumnDef) (value : Option Value) : List String :=
  match d.max, value with
  | some m, some v =>
      match v with
      | .null => []
      | _ => if jsGtNum v m then [maxMsg col v m] else []
  | _, _ => []

def minLengthCheckErrors (col : String) (d : ColumnDef) (value : Option Value) : List String :=
  match d.minLength, value with
  | some m, some v =>
      match v with
      | .null => []
      | _ =>
          let len := (jsToString v).length
          if len < m then [minLengthMsg col len m] else []
  | _, _ => []

def maxLengthCheckErrors (col : String) (d : ColumnDef) (value : Option Value) : List String :=
  match d.maxLength, value with
  | some m, some v =>
      match v with
      | .null => []
      | _ =>
          let len := (jsToString v).length
          if m < len then [maxLengthMsg col len m] else []
  | _, _ => []

def patternCheckErrors (col : String) (d : ColumnDef) (value : Option Value) : List String :=
  match d.pattern, value with
  | some (src, p), some v =>
      match v with
      | .null => []
      | _ => if p (jsToString v) then [] else [patternMsg col v src]
  | _, _ => []

/-- A row is new when no existing row shares its id (undefined ids compare
equal under strict equality). -/
def isNewRow (row : Row) (existingRows : List Row) : Bool :=
  ! existingRows.any (fun r => oveq (getField r "id") (getField row "id"))

/-- All violations contributed by one schema column, in source check order:
type, required, unique, min, max, minLength, maxLength, pattern. -/
def colErrors (env : Env) (existingRows : List Row) (row : Row)
    (cd : String × ColumnDef) : List String :=
  let col := cd.1
  let d := cd.2
  let value := getField row col
  let isNew := isNewRow row existingRows
  let existingValues := existingRows.map (fun r => getField r col)
  typeCheckErrors env col d value ++
  requiredCheckErrors col d value ++
  uniqueCheckErrors col d value existingValues isNew ++
  minCheckErrors col d value ++
  maxCheckErrors col d value ++
  minLengthCheckErrors col d value ++
  maxLengthCheckErrors col d value ++
  patternCheckErrors col d value

/-- Closed-schema check: any row field outside the column set, other than id,
is a violation. -/
def extraFieldErrors (schema : Schema) (row : Row) : List String :=
  (row.map Prod.fst).filterMap (fun f =>
    if f ≠ "id" ∧ (schema.lookup f).isNone then some (extraFieldMsg f) else none)

/-- Defaults are supplied only for fields absent from the input row; the read
is always against the original row, the write against the accumulating copy. -/
def applyDefaults (schema : Schema) (row : Row) : Row :=
  schema.foldl (fun acc cd =>
    match getField row cd.1, cd.2.dflt with
    | none, some dv => setField acc cd.1 dv
    | _, _ => acc) row

/-- SchemaValidator.validateRow: accumulate every violation across all columns
plus the extra-field violations; throw them all together, otherwise return the
row with defaults applied. -/
def validateRow (env : Env) (row : Row) (schema : Schema) (existingRows : List Row) :
    Except (List String) Row :=
  let errs := schema.flatMap (colErrors env existingRows row) ++ extraFieldErrors schema row
  if errs.isEmpty then .ok (applyDefaults schema row) else .error errs

/-- Errors surfacing from an operation.  err is an explicitly thrown Error with
its message; enoent is the filesystem error raised by reading a missing table
unit without an existence check; validation is the schema-validation throw
carrying the accumulated messages. -/
inductive DbError where
  | err : String → DbError
  | enoent : String → DbError
  | validation : List String → DbError
deriving DecidableEq

def tableNotFoundMsg (t : String) : String := "Table \"" ++ t ++ "\" not found"

def tableExistsMsg (t : String) : String := "Table \"" ++ t ++ "\" already exists"

/-- Replace the persisted unit of one table. -/
def setTable (db : Database) (t : String) (td : TableData) : Database :=
  db.map (fun p => if p.1 = t then (t, td) else p)

/-- A column definition as supplied by the caller: either the string shorthand
or a full definition object. -/
inductive ColInput where
  | simple : String → ColInput
  | full : ColumnDef → ColInput

def normalizeCol : ColInput → ColumnDef
  | .simple ty => { type := some ty }
  | .full d => d

/-- Caller options of createTable. -/
structure CreateOptions where
  encryption : EncOpts := {}
  timestamps : Option Bool := none

/-- createTable: name check, duplicate-unit check, normalization, implicit id
column, empty row set, stored options. -/
def createTable (env : Env) (db : Database) (t : String)
    (columns : List (String × ColInput)) (relationships : List (String × Rel))
    (opts : CreateOptions) : Except DbError Database :=
  if t = "" then .error (.err "Table name required")
  else
    match db.lookup t with
    | some _ => .error (.err (tableExistsMsg t))
    | none =>
        let normalized := columns.map (fun p => (p.1, normalizeCol p.2))
        let normalized :=
          if (normalized.lookup "id").isSome then normalized
          else normalized ++ [("id", { type := some "uuid", required := true })]
        let td : TableData :=
          { name := t
            createdAt := env.now
            columns := normalized
            relationships := relationships
            rows := []
            indexes := []
            options :=
              { encryption := opts.encryption
                timestamps := opts.timestamps.getD true } }
        .ok (db ++ [(t, td)])

/-- encryptField: pass a falsy key through, otherwise produce the tagged
ciphertext of the JSON serialization. -/
def encryptFieldVal (enc : String → String → String) (stringify : Value → String)
    (value : Value) (key : Option String) : Value :=
  match key with
  | none => value
  | some k => if k = "" then value else Value.enc (enc k (stringify value))

/-- decryptField: untagged values and falsy keys pass through unchanged; a
failed decryption or a failed parse returns the tagged object unchanged. -/
def decryptFieldVal (dec : String → String → Option String)
    (parse : String → Option Value) (v : Value) (key : Option String) : Value :=
  match v with
  | .enc d =>
      match key with
      | none => v
      | some k =>
          if k = "" then v
          else
            match dec k d with
            | none => v
            | some plain =>
                match parse plain with
                | some w => w
                | none => v
  | _ => v

/-- Foreign-key validation over the relationship entries, first failure wins. -/
def fkCheck (db : Database) (row : Row) : List (String × Rel) → Option DbError
  | [] => none
  | (field, rel) :: rest =>
      match getField row field with
      | none => fkCheck db row rest
      | some v =>
          match db.lookup rel.foreignTable with
          | none =>
              some (.err ("Foreign table \"" ++ rel.foreignTable ++ "\" does not exist"))
          | some ft =>
              if ft.rows.any (fun r => oveq (getField r rel.foreignKey) (some v)) then
                fkCheck db row rest
              else
                some (.err ("Foreign key violation: " ++ field ++ "=" ++ jsToString v ++
                  " not found in " ++ rel.foreignTable))

/-- Insert-path encryption of the configured fields (the fields list being
present runs the loop even when empty, matching array truthiness). -/
def encryptStage (env : Env) (opts : TableOptions) (row : Row) : Row :=
  match opts.encryption.fields with
  | none => row
  | some fs =>
      fs.foldl (fun r f =>
        match getField r f with
        | none => r
        | some v => setField r f (encryptFieldVal env.encS env.stringifyS v opts.encryption.key)) row

/-- insert: validate against the full schema and current rows, then generate
the id when the id column is uuid-typed and the validated id is falsy, then
timestamps, then foreign keys, then encryption, then append and persist. -/
def insert (env : Env) (db : Database) (t : String) (rowData : Row) :
    Except DbError (Database × Row) :=
  match db.lookup t with
  | none => .error (.err (tableNotFoundMsg t))
  | some td =>
      match validateRow env rowData td.columns td.rows with
      | .error es => .error (.validation es)
      | .ok vr0 =>
          let vr1 :=
            if (match td.columns.lookup "id" with
                | some d => d.type == some "uuid"
                | none => false) && ! jsTruthy (getField vr0 "id") then
              setField vr0 "id" (.str env.genId)
            else vr0
          let vr2 :=
            if td.options.timestamps then
              let a := if ! jsTruthy (getField vr1 "createdAt") then
                  setField vr1 "createdAt" (.str env.now) else vr1
              if ! jsTruthy (getField a "updatedAt") then
                setField a "updatedAt" (.str env.now) else a
            else vr1
          match fkCheck db vr2 td.relationships with
          | some e => .error e
          | none =>
              let vr3 := encryptStage env td.options vr2
              .ok (setTable db t { td with rows := td.rows ++ [vr3] }, vr3)

/-- insertMany loop: each element insert fully completes and persists before
the next begins; a failing element propagates its error, keeping the database
state produced by the earlier elements. -/
def insertManyAux (envF : Nat → Env) (t : String) :
    Nat → Database → List Row → List Row → Database × Except DbError (List Row)
  | _, d, [], acc => (d, .ok acc.reverse)
  | i, d, r :: rs, acc =>
      match insert (envF i) d t r with
      | .error e => (d, .error e)
      | .ok (d2, vr) => insertManyAux envF t (i + 1) d2 rs (vr :: acc)

def insertMany (envF : Nat → Env) (db : Database) (t : String) (rows : List Row) :
    Database × Except DbError (List Row) :=
  insertManyAux envF t 0 db rows []

/-- A where condition in select: a plain value, explicit undefined, an operator
object, or an array of candidate values. -/
inductive Cond where
  | value : Value → Cond
  | undef : Cond
  | ops : List (String × Value) → Cond
  | arrv : List Value → Cond

/-- Substring test over character lists, for the $like operator. -/
def hasInfix {α : Type} [BEq α] (needle : List α) : List α → Bool
  | [] => needle.isEmpty
  | a :: t => needle.isPrefixOf (a :: t) || hasInfix needle t

/-- One operator of an operator object. -/
def evalOp (env : Env) (rv : Option Value) (op : String) (v : Value) : Bool :=
  if op = "$eq" then oveq rv (some v)
  else if op = "$ne" then ! oveq rv (some v)
  else if op = "$gt" then (match rv with | some a => jsLt v a | none => false)
  else if op = "$gte" then (match rv with | some a => jsLe v a | none => false)
  else if op = "$lt" then (match rv with | some a => jsLt a v | none => false)
  else if op = "$lte" then (match rv with | some a => jsLe a v | none => false)
  else if op = "$in" then
    (match v with
     | .arr vs => match rv with | some a => vs.contains a | none => false
     | _ => false)
  else if op = "$nin" then
    (match v with
     | .arr vs => match rv with | some a => ! vs.contains a | none => true
     | _ => false)
  else if op = "$like" then
    (match rv with
     | some a => hasInfix (jsToString v).toList (jsToString a).toList
     | none => hasInfix (jsToString v).toList "undefined".toList)
  else if op = "$regex" then
    (match rv with
     | some a => env.regexTest (jsToString v) (jsToString a)
     | none => env.regexTest (jsToString v) "undefined")
  else
    false

/-- Evaluate one field condition against a row. -/
def evalCond (env : Env) (row : Row) (key : String) (c : Cond) : Bool :=
  match c with
  | .undef => oveq (getField row key) none
  | .value .null => oveq (getField row key) (some .null)
  | .ops l => l.all (fun p => evalOp env (getField row key) p.1 p.2)
  | .arrv vs =>
      (match getField row key with
       | some a => vs.contains a
       | none => false)
  | .value v => oveq (getField row key) (some v)

/-- The where filter: all fields conjunctive. -/
def matchesWhereSel (env : Env) (w : List (String × Cond)) (row : Row) : Bool :=
  w.all (fun p => evalCond env row p.1 p.2)

/-- A join spec; alias defaults to the target table name and the type defaults
to left, as the destructuring defaults in the source. -/
structure JoinSpec where
  table : String
  onLocal : String
  onForeign : String
  asName : Option String := none
  jtype : Option String := none

/-- The join loop.  A missing target under inner empties the result set and
breaks out of the loop; under left the spec is skipped.  Matches attach under
the alias: none gives null, one gives the single record, several give the
list. -/
def applyJoins (db : Database) : List Row → List JoinSpec → List Row
  | rows, [] => rows
  | rows, j :: rest =>
      let aliasName := j.asName.getD j.table
      let ty := j.jtype.getD "left"
      match db.lookup j.table with
      | none => if ty == "inner" then [] else applyJoins db rows rest
      | some jd =>
          let rows2 := rows.filterMap (fun row =>
            let related := jd.rows.filter (fun jrow =>
              oveq (getField jrow j.onForeign) (getField row j.onLocal))
            if ty == "inner" && related.isEmpty then none
            else
              some (setField row aliasName
                (if related.length > 0 then
                   (if related.length == 1 then .obj (related.headD []) else .arr (related.map Value.obj))
                 else .null)))
          applyJoins db rows2 rest

/-- The sort comparator: identical values keep order, absent and null values sort
first ascending and last descending, otherwise the abstract relational
comparison decides. -/
def jsCompare (field dir : String) (a b : Row) : Int :=
  let aVal := getField a field
  let bVal := getField b field
  if oveq aVal bVal then 0
  else
    match aVal with
    | none => if dir == "asc" then -1 else 1
    | some .null => if dir == "asc" then -1 else 1
    | some av =>
        match bVal with
        | none => if dir == "asc" then 1 else -1
        | some .null => if dir == "asc" then 1 else -1
        | some bv =>
            let c : Int := if jsLt av bv then -1 else 1
            if dir == "asc" then c else -c

/-- Stable insertion of one row into an already sorted suffix. -/
def insertSorted (le : Row → Row → Bool) (x : Row) : List Row → List Row
  | [] => [x]
  | y :: ys => if le x y then x :: y :: ys else y :: insertSorted le x ys

/-- The runtime sort is stable; modelled as a stable insertion sort over the
comparator. -/
def sortRows (le : Row → Row → Bool) : List Row → List Row
  | [] => []
  | x :: xs => insertSorted le x (sortRows le xs)

/-- slice with the ECMAScript index clamping. -/
def jsSlice {α : Type} (l : List α) (s e : Int) : List α :=
  let len : Int := l.length
  let lo := if s < 0 then max (len + s) 0 else min s len
  let hi := if e < 0 then max (len + e) 0 else min e len
  (l.take hi.toNat).drop lo.toNat

/-- Truthiness of an optional numeric option. -/
def truthyOpt : Option Int → Bool
  | none => false
  | some n => n != 0

/-- The pagination stage: skipped entirely when both limit and offset are
falsy; otherwise offset defaults to 0 and limit to the full remaining count. -/
def paginate (limit offset : Option Int) (rows : List Row) : List Row :=
  if truthyOpt limit || truthyOpt offset then
    let o := offset.getD 0
    let l : Int :=
      match limit with
      | some n => if n = 0 then (rows.length : Int) else n
      | none => rows.length
    jsSlice rows o (o + l)
  else rows

/-- Projection keeps exactly the requested fields that are present. -/
def projectFields (fs : List String) (row : Row) : Row :=
  fs.foldl (fun acc f =>
    match getField row f with
    | some v => setField acc f v
    | none => acc) []

/-- Read-path decryption of the configured fields; only values carrying the
ciphertext tag are touched. -/
def decryptStage (env : Env) (opts : TableOptions) (rows : List Row) : List Row :=
  match opts.encryption.fields with
  | none => rows
  | some fs =>
      rows.map (fun row =>
        fs.foldl (fun r f =>
          match getField r f with
          | some (.enc d) =>
              setField r f (decryptFieldVal env.decS env.parseS (.enc d) opts.encryption.key)
          | _ => r) row)

/-- Caller options of select. -/
structure SelectOptions where
  whereC : Option (List (String × Cond)) := none
  join : Option (List JoinSpec) := none
  orderBy : Option (String × Option String) := none
  limit : Option Int := none
  offset : Option Int := none
  fields : Option (List String) := none

/-- select: decrypt, filter, join, sort, paginate, project, in that fixed
order. -/
def select (env : Env) (db : Database) (t : String) (opts : SelectOptions) :
    Except DbError (List Row) :=
  match db.lookup t with
  | none => .error (.err (tableNotFoundMsg t))
  | some td =>
      let rows := decryptStage env td.options td.rows
      let rows :=
        match opts.whereC with
        | none => rows
        | some w => rows.filter (matchesWhereSel env w)
      let rows :=
        match opts.join with
        | none => rows
        | some js => applyJoins db rows js
      let rows :=
        match opts.orderBy with
        | none => rows
        | some ob =>
            let dir := ob.2.getD "asc"
            sortRows (fun a b => decide (jsCompare ob.1 dir a b ≤ 0)) rows
      let rows := paginate opts.limit opts.offset rows
      let rows :=
        match opts.fields with
        | none => rows
        | some fs => rows.map (projectFields fs)
      .ok rows

/-- The update and delete where clause: plain strict equality on every key. -/
abbrev WhereEq := List (String × Option Value)

def matchesWhereEq (row : Row) (w : WhereEq) : Bool :=
  w.all (fun p => oveq (getField row p.1) p.2)

/-- Apply an update patch with object spread semantics. -/
def setFields (row : Row) (updates : List (String × Value)) : Row :=
  updates.foldl (fun r p => setField r p.1 p.2) row

/-- Update-path re-encryption: skip fields already carrying the tag. -/
def encryptStageUpd (env : Env) (opts : TableOptions) (row : Row) : Row :=
  match opts.encryption.fields with
  | none => row
  | some fs =>
      fs.foldl (fun r f =>
        match getField r f with
        | none => r
        | some (.enc _) => r
        | some v => setField r f (encryptFieldVal env.encS env.stringifyS v opts.encryption.key)) row

/-- The per-row step of update: matching rows are re-validated in full against
the other rows (the row under update excluded from the scan by id); a failed
re-validation keeps the original row. -/
def updateStep (env : Env) (td : TableData) (updates : List (String × Value))
    (w : WhereEq) (row : Row) : Row × Bool :=
  if matchesWhereEq row w then
    let updatedRow := setFields row updates
    match validateRow env updatedRow td.columns
        (td.rows.filter (fun r => ! oveq (getField r "id") (getField row "id"))) with
    | .ok vr =>
        let vr := if td.options.timestamps then setField vr "updatedAt" (.str env.now) else vr
        let vr := encryptStageUpd env td.options vr
        (vr, true)
    | .error _ => (row, false)
  else (row, false)

/-- update: map the step over the snapshot, count the successes, persist only
when at least one row changed. -/
def update (env : Env) (db : Database) (t : String) (updates : List (String × Value))
    (w : WhereEq) : Except DbError (Database × Nat × List Row) :=
  match db.lookup t with
  | none => .error (.err (tableNotFoundMsg t))
  | some td =>
      let mapped := td.rows.map (updateStep env td updates w)
      let newRows := mapped.map Prod.fst
      let updatedRows := (mapped.filter Prod.snd).map Prod.fst
      let count := updatedRows.length
      let db2 := if count > 0 then setTable db t { td with rows := newRows } else db
      .ok (db2, count, updatedRows)

/-- Cascade over one dependent table: every relationship entry pointing at the
deleted table filters out the rows whose local field is among the deleted
ids. -/
def cascadeTable (t : String) (ids : List (Option Value)) (other : TableData) : TableData :=
  { other with
    rows := other.relationships.foldl (fun rs p =>
      if p.2.foreignTable == t then
        rs.filter (fun r => ! ids.contains (getField r p.1))
      else rs) other.rows }

/-- delete: select the matching rows, optionally cascade over every other
table, then remove the matches and persist. -/
def delete (db : Database) (t : String) (w : WhereEq) (cascade : Bool) :
    Except DbError (Database × Nat × List Row) :=
  match db.lookup t with
  | none => .error (.err (tableNotFoundMsg t))
  | some td =>
      let rowsToDelete := td.rows.filter (fun r => matchesWhereEq r w)
      let ids := rowsToDelete.map (fun r => getField r "id")
      let db1 :=
        if cascade then
          db.map (fun p => if p.1 = t then p else (p.1, cascadeTable t ids p.2))
        else db
      let remaining := td.rows.filter (fun r => ! matchesWhereEq r w)
      let db2 := setTable db1 t { td with rows := remaining }
      .ok (db2, td.rows.length - remaining.length, rowsToDelete)

/-- Hash-index construction: field value stringified as the property key,
positions appended in row order, keys in first-seen order. -/
def hashUpsert (acc : List (String × List Nat)) (key : String) (i : Nat) :
    List (String × List Nat) :=
  match acc.lookup key with
  | some l => setAssoc acc key (l ++ [i])
  | none => acc ++ [(key, [i])]

def buildHashAux (field : String) : Nat → List Row → List (String × List Nat) →
    List (String × List Nat)
  | _, [], acc => acc
  | i, r :: rs, acc =>
      match getField r field with
      | none => buildHashAux field (i + 1) rs acc
      | some v => buildHashAux field (i + 1) rs (hashUpsert acc (jsToString v) i)

def buildHash (rows : List Row) (field : String) : List (String × List Nat) :=
  buildHashAux field 0 rows []

/-- addIndex reads the table unit with no existence check, so a missing unit
surfaces the filesystem error rather than the engine not-found error. -/
def addIndex (env : Env) (db : Database) (t field : String)
    (otype : Option String) (ounique : Option Bool) : Except DbError Database :=
  match db.lookup t with
  | none => .error (.enoent t)
  | some td =>
      let idx0 : IndexDef :=
        { itype := (match otype with
                    | some s => if s = "" then "value" else s
                    | none => "value")
          unique := ounique.getD false
          createdAt := env.now }
      let idx :=
        if otype == some "hash" then { idx0 with data := some (buildHash td.rows field) }
        else idx0
      .ok (setTable db t { td with indexes := setAssoc td.indexes field idx })

/-- addColumn also reads without an existence check.  Every existing row gets
the default value, null when no default is declared. -/
def addColumn (db : Database) (t colName : String) (d : ColumnDef) :
    Except DbError Database :=
  match db.lookup t with
  | none => .error (.enoent t)
  | some td =>
      if (td.columns.lookup colName).isSome then
        .error (.err ("Column \"" ++ colName ++ "\" already exists"))
      else
        let defaultValue := d.dflt.getD .null
        .ok (setTable db t
          { td with
            columns := td.columns ++ [(colName, d)]
            rows := td.rows.map (fun r => setField r colName defaultValue) })

/-- Remove the first binding of a column name from a schema. -/
def removeAssocCol : Schema → String → Schema
  | [], _ => []
  | (k, d) :: rest, c => if k = c then rest else (k, d) :: removeAssocCol rest c

/-- removeColumn also reads without an existence check. -/
def removeColumnOp (db : Database) (t colName : String) : Except DbError Database :=
  match db.lookup t with
  | none => .error (.enoent t)
  | some td =>
      if (td.columns.lookup colName).isNone then
        .error (.err ("Column \"" ++ colName ++ "\" does not exist"))
      else
        .ok (setTable db t
          { td with
            columns := removeAssocCol td.columns colName
            rows := td.rows.map (fun r => removeField r colName) })

/-- migrate: the transform runs per row over the snapshot; none models a
thrown transform, which keeps the row unchanged. -/
def migrate (db : Database) (t : String)
    (fn : Row → Nat → List Row → Option Row) : Except DbError Database :=
  match db.lookup t with
  | none => .error (.err (tableNotFoundMsg t))
  | some td =>
      let newRows := (td.rows.enum.map (fun p =>
        match fn p.2 p.1 td.rows with
        | some r2 => r2
        | none => p.2))
      .ok (setTable db t { td with rows := newRows })

/-- The full violation list accumulated by a validateRow call, in source
order: per-column checks in column order, then the extra-field checks. -/
def allErrors (env : Env) (row : Row) (schema : Schema) (existingRows : List Row) : List String :=
  schema.flatMap (colErrors env existingRows row) ++ extraFieldErrors schema row

/-- Observation helper: the message list of a validation failure of insert. -/
def insertErrs (env : Env) (db : Database) (t : String) (row : Row) : List String :=
  match insert env db t row with
  | .error (.validation es) => es
  | _ => []

/-- Observation helper: the reported update count. -/
def updateCount (env : Env) (db : Database) (t : String)
    (updates : List (String × Value)) (w : WhereEq) : Nat :=
  match update env db t updates w with
  | .ok (_, n, _) => n
  | .error _ => 0

/-- Observation helper: whether an operation succeeded. -/
def isOkE {ε α : Type} : Except ε α → Bool
  | .ok _ => true
  | .error _ => false

/-- The effective limit of the pagination stage: a falsy limit defaults to the
full row count. -/
def effectiveLimit (limit : Option Int) (len : Nat) : Int :=
  match limit with
  | some n => if n = 0 then (len : Int) else n
  | none => (len : Int)

/-- Extract the database from a createTable result, empty on error. -/
def okDb : Except DbError Database → Database
  | .ok d => d
  | .error _ => []

/-- Extract the database from an insert result, empty on error. -/
def okInsDb : Except DbError (Database × Row) → Database
  | .ok p => p.1
  | .error _ => []

/-!  Concrete instances used by the claim theorems and their witnesses. -/

/-- A concrete environment with trivial primitives, fixed id and clock. -/
def env0 : Env :=
  { encS := fun _ s => s
    decS := fun _ _ => none
    stringifyS := jsToString
    parseS := fun _ => none
    regexTest := fun _ _ => false
    dateParse := fun _ => false
    genId := "11111111-1111-1111-1111-111111111111"
    now := "2026-01-01T00:00:00.000Z" }

def c1Cols : List (String × ColInput) :=
  [("name", .full { type := some "text", required := true }),
   ("age", .full { type := some "int", min := some 0 })]

/-- The table of the C1 scenario, as created by createTable. -/
def c1Db : Database := okDb (createTable env0 [] "t" c1Cols [] {})

def uuidA : String := "00000000-0000-0000-0000-000000000001"

def uuidB : String := "00000000-0000-0000-0000-000000000002"

def c2CDef : ColumnDef := { type := some "text", unique := true }

def c2IdDef : ColumnDef := { type := some "uuid", required := true }

def c2Row : Row := [("c", .str "v"), ("id", .str uuidA)]

/-- A table with one unique column, built through createTable. -/
def c2Db : Database :=
  okDb (createTable env0 [] "t" [("c", .full c2CDef)] [] {})

/-- The same database after one successful insert of c2Row. -/
def c2Db1 : Database := okInsDb (insert env0 c2Db "t" c2Row)

def tdEmpty : TableData :=
  { name := "", createdAt := "", columns := [], relationships := []
    rows := [], indexes := [], options := {} }

def c2Td1 : TableData :=
  match c2Db1.lookup "t" with
  | some td => td
  | none => tdEmpty

/-- A timestamps-disabled variant holding the same row, used for the update
half of the uniqueness claim. -/
def c2TdB : TableData :=
  { name := "tn", createdAt := "2026-01-01T00:00:00.000Z"
    columns := [("c", c2CDef), ("id", c2IdDef)]
    relationships := []
    rows := [c2Row]
    indexes := []
    options := { timestamps := false } }

def c2DbB : Database := [("tn", c2TdB)]

/-- Ten rows carrying their position, for the pagination scenarios. -/
def rows10 : List Row := (List.range 10).map (fun i => [("n", Value.int i)])

def tdPag : TableData :=
  { name := "p", createdAt := "", columns := [], relationships := []
    rows := rows10, indexes := [], options := { timestamps := false } }

def dbPag : Database := [("p", tdPag)]

/-- Users and posts fixtures for the join and cascade scenarios. -/
def usersTd : TableData :=
  { name := "users", createdAt := "", columns := [], relationships := []
    rows := [[("id", .str "u1"), ("nm", .str "A")],
             [("id", .str "u2"), ("nm", .str "B")],
             [("id", .str "u2"), ("nm", .str "B2")]]
    indexes := [], options := { timestamps := false } }

def postsRows : List Row :=
  [[("pid", .int 1), ("user_id", .str "u1")],
   [("pid", .int 2), ("user_id", .str "u2")],
   [("pid", .int 3), ("user_id", .str "u9")]]

def postsTd : TableData :=
  { name := "posts", createdAt := "", columns := []
    relationships := [("user_id", { foreignTable := "users", foreignKey := "id" })]
    rows := postsRows
    indexes := [], options := { timestamps := false } }

def dbJoin : Database := [("users", usersTd), ("posts", { postsTd with relationships := [] })]

def joinSpecL : JoinSpec :=
  { table := "users", onLocal := "user_id", onForeign := "id"
    asName := some "author", jtype := some "left" }

/-- Cascade fixture: two users, three posts referencing them. -/
def usersC : TableData := { usersTd with rows := [[("id", .str "u1")], [("id", .str "u2")]] }

def dbCasc : Database := [("users", usersC), ("posts", postsTd)]

/-- Concrete cipher pieces satisfying the cipher hypotheses of the round-trip
theorem at one point, used only by its witness. -/
def c4enc : String → String → String := fun k s => k ++ s

def c4dec : String → String → Option String :=
  fun k t => if k = "kk" ∧ t = "kkx" then some "x" else none

def c4stringify : Value → String := fun _ => "x"

def c4parse : String → Option Value := fun _ => some (.str "a")

/-- insertMany fixture: a required column and a caller-defined optional uuid
id, so that inserts without an id succeed. -/
def c7Cols : List (String × ColInput) :=
  [("a", .full { type := some "text", required := true }),
   ("id", .full { type := some "uuid" })]

def c7Db : Database :=
  okDb (createTable env0 [] "t7" c7Cols [] { timestamps := some false })

/-- Existence fixture for the error-taxonomy claims. -/
def dbExist : Database := [("x", tdEmpty)]

/-- Validation fixture: a required column and a bounded integer column. -/
def c9Schema : Schema :=
  [("a", { required := true }), ("b", { type := some "int", min := some 0 })]

def c9Row : Row := [("b", .int (-1))]

/-- The database state after the successful first element of the insertMany
scenario. -/
def c7DbG : Database := (insertMany (fun _ => env0) c7Db "t7" [[("a", .str "x")]]).1

def c7Res : List Row :=
  match (insertMany (fun _ => env0) c7Db "t7" [[("a", .str "x")]]).2 with
  | .ok rs => rs
  | .error _ => []

/-!  Supporting lemmas. -/

/-- validateRow unfolded through allErrors. -/
theorem validateRow_eq (env : Env) (schema : Schema) (row : Row) (ex : List Row) :
    validateRow env row schema ex =
      if (allErrors env row schema ex).isEmpty then .ok (applyDefaults schema row)
      else .error (allErrors env row schema ex) := rfl

/-- A single violation anywhere forces the error outcome carrying the whole
accumulated list. -/
theorem validateRow_error_of_mem (env : Env) (schema : Schema) (row : Row)
    (ex : List Row) (m : String) (h : m ∈ allErrors env row schema ex) :
    validateRow env row schema ex = .error (allErrors env row schema ex) := by
  rw [validateRow_eq]
  cases hE : allErrors env row schema ex with
  | nil => rw [hE] at h; cases h
  | cons a t => rfl

/-- Writing the value a field already holds leaves the row unchanged. -/
theorem setField_self (r : Row) (c : String) (v : Value)
    (h : getField r c = some v) : setField r c v = r := by
  induction r with
  | nil => simp [getField, List.lookup] at h
  | cons p t ih =>
    obtain ⟨k, w⟩ := p
    by_cases hk : c = k
    · subst hk
      have hw : w = v := by simpa [getField, List.lookup] using h
      simp [setField, setAssoc, hw]
    · have hbeq : (c == k) = false := beq_eq_false_iff_ne.mpr hk
      have h2 : getField t c = some v := by
        simpa [getField, List.lookup, hbeq] using h
      have ih2 := ih h2
      simp only [setField, setAssoc] at ih2 ⊢
      rw [if_neg (fun hkc => hk hkc.symm), ih2]

/-!  C9 and C1. -/

/-- C9: row validation accumulates a violation for every failed check across
all columns: any violation (per-column or extra-field) yields the error
outcome carrying the full accumulated message list containing it, and the
success outcome returns the row with defaults applied and an empty violation
list. -/
theorem validateRow_accumulates (env : Env) (schema : Schema) (row : Row) (ex : List Row) :
    (∀ cd ∈ schema, ∀ m ∈ colErrors env ex row cd,
        validateRow env row schema ex = .error (allErrors env row schema ex) ∧
        m ∈ allErrors env row schema ex)
    ∧ (∀ m ∈ extraFieldErrors schema row,
        validateRow env row schema ex = .error (allErrors env row schema ex) ∧
        m ∈ allErrors env row schema ex)
    ∧ (∀ r, validateRow env row schema ex = .ok r →
        r = applyDefaults schema row ∧ allErrors env row schema ex = []) := by
  refine ⟨?_, ?_, ?_⟩
  · intro cd hcd m hm
    have hmem : m ∈ allErrors env row schema ex :=
      List.mem_append_left _ (List.mem_flatMap.mpr ⟨cd, hcd, hm⟩)
    exact ⟨validateRow_error_of_mem env schema row ex m hmem, hmem⟩
  · intro m hm
    have hmem : m ∈ allErrors env row schema ex := List.mem_append_right _ hm
    exact ⟨validateRow_error_of_mem env schema row ex m hmem, hmem⟩
  · intro r hr
    rw [validateRow_eq] at hr
    cases hE : (allErrors env row schema ex).isEmpty with
    | true =>
        rw [hE] at hr
        simp at hr
        exact ⟨hr.symm, List.isEmpty_iff.mp hE⟩
    | false =>
        rw [hE] at hr
        simp at hr

/-- Witness for C9: a required violation in one column and a minimum violation
in another are reported together. -/
theorem validateRow_accumulates_witness :
    validateRow env0 c9Row c9Schema [] = .error [requiredMsg "a", minMsg "b" (.int (-1)) 0]
    ∧ requiredMsg "a" ∈ allErrors env0 c9Row c9Schema [] := by
  have h := (validateRow_accumulates env0 c9Schema c9Row []).1
    ("a", { required := true }) (List.mem_cons_self _ _) (requiredMsg "a") (by decide)
  exact ⟨h.1.trans (by rfl), h.2⟩

/-- C1 (code bug): in the scenario table (name required text, age int with
minimum 0, implicit required uuid id), inserting name a with age -1 fails with
the minimum violation referencing age, as claimed; but inserting name a with
age 5 also fails, with the required violation for id, because validation runs
before the id is auto-generated and the implicit id column is required, so the
claimed success with a generated id never happens. -/
theorem insert_id_required_bug :
    insertErrs env0 c1Db "t" [("name", .str "a"), ("age", .int (-1))]
      = [minMsg "age" (.int (-1)) 0, requiredMsg "id"]
    ∧ insertErrs env0 c1Db "t" [("name", .str "a"), ("age", .int 5)] = [requiredMsg "id"] :=
  ⟨rfl, rfl⟩

/-!  C2. -/

/-- Counterexample for C2 as stated: after a successful insert of a row with
unique value v and explicit id, a second insert of the very same row (same v,
same id) succeeds, because a row sharing an existing id is not new and skips
the uniqueness scan; and on the default timestamped table, updating the row to
its own current value reports zero updated rows, because the engine-added
createdAt and updatedAt fields fail the closed-schema re-validation. -/
theorem unique_claim_counterexample :
    isOkE (insert env0 c2Db "t" c2Row) = true
    ∧ isOkE (insert env0 c2Db1 "t" c2Row) = true
    ∧ updateCount env0 c2Db1 "t" [("c", .str "v")] [("id", some (.str uuidA))] = 0 :=
  ⟨rfl, rfl, rfl⟩

/-- C2 (amended): a second insert with an already-present non-null value for a
unique column fails with the uniqueness violation provided the inserted row is
new, that is, its id matches no existing row id; and updating a row to its own
current value succeeds whenever the patched row passes re-validation against
the other rows, because the update path excludes the row being updated from
the uniqueness scan by id. -/
theorem unique_scan_amended :
    (∀ (env : Env) (db : Database) (t : String) (td : TableData) (c : String)
        (d : ColumnDef) (row : Row) (v : Value),
        db.lookup t = some td →
        (c, d) ∈ td.columns →
        d.unique = true →
        getField row c = some v →
        v ≠ .null →
        (td.rows.map (fun r => getField r c)).contains (some v) = true →
        isNewRow row td.rows = true →
        uniqueMsg c v ∈ insertErrs env db t row)
    ∧ (∀ (env : Env) (db : Database) (t : String) (td : TableData) (c : String)
        (row : Row) (v : Value) (w : WhereEq),
        db.lookup t = some td →
        row ∈ td.rows →
        matchesWhereEq row w = true →
        getField row c = some v →
        isOkE (validateRow env row td.columns
          (td.rows.filter (fun r => ! oveq (getField r "id") (getField row "id")))) = true →
        1 ≤ updateCount env db t [(c, v)] w) := by
  constructor
  · intro env db t td c d row v hlk hcd huniq hval hv hcont hnew
    have hfire : uniqueCheckErrors c d (some v)
        (td.rows.map (fun r => getField r c)) (isNewRow row td.rows) = [uniqueMsg c v] := by
      rw [hnew]
      cases v with
      | null => exact absurd rfl hv
      | str s => simp [uniqueCheckErrors, huniq, hcont]
      | int n => simp [uniqueCheckErrors, huniq, hcont]
      | bool b => simp [uniqueCheckErrors, huniq, hcont]
      | enc s => simp [uniqueCheckErrors, huniq, hcont]
      | obj l => simp [uniqueCheckErrors, huniq, hcont]
      | arr l => simp [uniqueCheckErrors, huniq, hcont]
    have hcol : uniqueMsg c v ∈ colErrors env td.rows row (c, d) := by
      show uniqueMsg c v ∈
        typeCheckErrors env c d (getField row c) ++
        requiredCheckErrors c d (getField row c) ++
        uniqueCheckErrors c d (getField row c)
          (td.rows.map (fun r => getField r c)) (isNewRow row td.rows) ++
        minCheckErrors c d (getField row c) ++
        maxCheckErrors c d (getField row c) ++
        minLengthCheckErrors c d (getField row c) ++
        maxLengthCheckErrors c d (getField row c) ++
        patternCheckErrors c d (getField row c)
      rw [hval, hfire]
      simp [List.mem_append]
    have hmem : uniqueMsg c v ∈ allErrors env row td.columns td.rows :=
      List.mem_append_left _ (List.mem_flatMap.mpr ⟨(c, d), hcd, hcol⟩)
    have hvr := validateRow_error_of_mem env td.columns row td.rows (uniqueMsg c v) hmem
    have hins : insert env db t row = .error (.validation (allErrors env row td.columns td.rows)) := by
      unfold insert
      simp only [hlk, hvr]
    simp only [insertErrs, hins]
    exact hmem
  · intro env db t td c row v w hlk hrow hmatch hval hok
    have hsf : setFields row [(c, v)] = row := by
      simp only [setFields, List.foldl_cons, List.foldl_nil]
      exact setField_self row c v hval
    have hstep : (updateStep env td [(c, v)] w row).2 = true := by
      unfold updateStep
      rw [hmatch, hsf]
      simp only [if_true]
      cases hv2 : validateRow env row td.columns
          (td.rows.filter (fun r => ! oveq (getField r "id") (getField row "id"))) with
      | ok vr => simp
      | error es => rw [hv2] at hok; simp [isOkE] at hok
    unfold updateCount update
    simp only [hlk]
    have hmem1 : updateStep env td [(c, v)] w row ∈ td.rows.map (updateStep env td [(c, v)] w) :=
      List.mem_map_of_mem _ hrow
    have hmem2 : updateStep env td [(c, v)] w row ∈
        (td.rows.map (updateStep env td [(c, v)] w)).filter Prod.snd :=
      List.mem_filter.mpr ⟨hmem1, hstep⟩
    have hmem3 : (updateStep env td [(c, v)] w row).1 ∈
        ((td.rows.map (updateStep env td [(c, v)] w)).filter Prod.snd).map Prod.fst :=
      List.mem_map_of_mem _ hmem2
    have hpos := List.length_pos.mpr (List.ne_nil_of_mem hmem3)
    omega

/-- Witness for C2 amended: a fresh-id duplicate of the unique value is
rejected with the uniqueness message, and the update of a row to its own value
on the timestamps-disabled table counts one updated row. -/
theorem unique_scan_amended_witness :
    uniqueMsg "c" (.str "v") ∈ insertErrs env0 c2Db1 "t" [("c", .str "v"), ("id", .str uuidB)]
    ∧ 1 ≤ updateCount env0 c2DbB "tn" [("c", .str "v")] [("id", some (.str uuidA))] := by
  constructor
  · exact unique_scan_amended.1 env0 c2Db1 "t" c2Td1 "c" c2CDef
      [("c", .str "v"), ("id", .str uuidB)] (.str "v") rfl
      (by rw [show c2Td1.columns = [("c", c2CDef), ("id", c2IdDef)] from rfl]
          exact List.mem_cons_self _ _)
      rfl rfl (fun h => nomatch h) rfl rfl
  · exact unique_scan_amended.2 env0 c2DbB "tn" c2TdB "c" c2Row (.str "v")
      [("id", some (.str uuidA))] rfl
      (by rw [show c2TdB.rows = [c2Row] from rfl]
          exact List.mem_cons_self _ _)
      rfl rfl rfl

/-!  C3. -/

/-- Splitting a list by a predicate preserves the total length. -/
theorem filter_length_split (l : List Row) (p : Row → Bool) :
    (l.filter p).length + (l.filter (fun a => ! p a)).length = l.length := by
  induction l with
  | nil => rfl
  | cons a t ih =>
    cases h : p a <;> simp [List.filter_cons, h] <;> omega

/-- The sequential per-relationship filters of the cascade equal one filter by
the conjunction over all relationship entries. -/
theorem cascade_rows (t : String) (ids : List (Option Value))
    (rels : List (String × Rel)) (rs : List Row) :
    rels.foldl (fun acc p =>
        if p.2.foreignTable == t then
          acc.filter (fun r => ! ids.contains (getField r p.1))
        else acc) rs
      = rs.filter (fun r => rels.all (fun q =>
          !(q.2.foreignTable == t) || ! ids.contains (getField r q.1))) := by
  induction rels generalizing rs with
  | nil => simp
  | cons q rest ih =>
    simp only [List.foldl_cons, List.all_cons]
    cases h : q.2.foreignTable == t with
    | true =>
      rw [if_pos rfl, ih, List.filter_filter]
      apply List.filter_congr
      intro r _
      simp [Bool.and_comm]
    | false =>
      rw [if_neg (by simp), ih]
      apply List.filter_congr
      intro r _
      simp

/-- cascadeTable in closed filter form. -/
theorem cascadeTable_rows (t : String) (ids : List (Option Value)) (other : TableData) :
    cascadeTable t ids other =
      { other with rows := other.rows.filter (fun r =>
          other.relationships.all (fun q =>
            !(q.2.foreignTable == t) || ! ids.contains (getField r q.1))) } := by
  unfold cascadeTable
  rw [cascade_rows]

/-- C3: delete with cascade scans every other table; in each one, exactly the
rows whose relationship fields pointing at the deleted table hold the id of
some deleted row are removed, rows referencing non-deleted ids stay, tables
without such relationships stay whole; the deleted rows and their count are
returned and everything is persisted in the resulting database. -/
theorem delete_cascade_correct (db : Database) (t : String) (w : WhereEq)
    (td : TableData) (hlk : db.lookup t = some td) :
    delete db t w true = .ok
      ( setTable
          (db.map (fun p =>
            if p.1 = t then p
            else (p.1, { p.2 with rows := p.2.rows.filter (fun r =>
              p.2.relationships.all (fun q =>
                !(q.2.foreignTable == t) ||
                ! ((td.rows.filter (fun s => matchesWhereEq s w)).map
                    (fun s => getField s "id")).contains (getField r q.1))) })))
          t { td with rows := td.rows.filter (fun r => ! matchesWhereEq r w) },
        (td.rows.filter (fun r => matchesWhereEq r w)).length,
        td.rows.filter (fun r => matchesWhereEq r w) ) := by
  unfold delete
  simp only [hlk, cascadeTable_rows]
  have hn : td.rows.length - (td.rows.filter (fun r => ! matchesWhereEq r w)).length
      = (td.rows.filter (fun r => matchesWhereEq r w)).length := by
    have := filter_length_split td.rows (fun r => matchesWhereEq r w)
    omega
  rw [hn]
  simp

/-- Witness for C3: deleting user u1 with cascade removes exactly the post
referencing u1 and keeps the posts referencing u2 and u9. -/
theorem delete_cascade_witness :
    delete dbCasc "users" [("id", some (.str "u1"))] true = .ok
      ( [("users", { usersC with rows := [[("id", .str "u2")]] }),
         ("posts", { postsTd with rows :=
            [[("pid", .int 2), ("user_id", .str "u2")],
             [("pid", .int 3), ("user_id", .str "u9")]] })],
        1,
        [[("id", .str "u1")]] ) := by
  exact (delete_cascade_correct dbCasc "users" [("id", some (.str "u1"))] usersC rfl).trans
    (by rfl)

/-!  C4. -/

/-- C4: for any field value and non-empty key, whenever the cipher and the
JSON codec invert at that point (which the runtime AES cipher and JSON codec
do for a matching key), decrypting an encrypted field with the same key
returns the original value; encryption produces the tagged ciphertext object,
and decrypting it with a key under which the cipher fails (as a different key
does for AES) does not raise and returns the tagged object unchanged. -/
theorem fieldCipher_roundtrip (enc : String → String → String)
    (dec : String → String → Option String) (stringify : Value → String)
    (parse : String → Option Value) (v : Value) (k k2 : String)
    (hk : k ≠ "") (hk2 : k2 ≠ "") (_hne : k2 ≠ k)
    (hdec : dec k (enc k (stringify v)) = some (stringify v))
    (hparse : parse (stringify v) = some v)
    (hbad : dec k2 (enc k (stringify v)) = none) :
    decryptFieldVal dec parse (encryptFieldVal enc stringify v (some k)) (some k) = v
    ∧ encryptFieldVal enc stringify v (some k) = Value.enc (enc k (stringify v))
    ∧ decryptFieldVal dec parse (encryptFieldVal enc stringify v (some k)) (some k2)
        = encryptFieldVal enc stringify v (some k) := by
  have hencv : encryptFieldVal enc stringify v (some k) = Value.enc (enc k (stringify v)) := by
    unfold encryptFieldVal
    simp [hk]
  refine ⟨?_, hencv, ?_⟩
  · rw [hencv]
    unfold decryptFieldVal
    simp [hk, hdec, hparse]
  · rw [hencv]
    unfold decryptFieldVal
    simp [hk2, hbad]

/-- Witness for C4 at a concrete value, key pair and cipher. -/
theorem fieldCipher_roundtrip_witness :
    decryptFieldVal c4dec c4parse (encryptFieldVal c4enc c4stringify (.str "a") (some "kk"))
        (some "kk") = .str "a"
    ∧ encryptFieldVal c4enc c4stringify (.str "a") (some "kk") = Value.enc "kkx"
    ∧ decryptFieldVal c4dec c4parse (encryptFieldVal c4enc c4stringify (.str "a") (some "kk"))
        (some "zz") = encryptFieldVal c4enc c4stringify (.str "a") (some "kk") := by
  have h := fieldCipher_roundtrip c4enc c4dec c4stringify c4parse (.str "a") "kk" "zz"
    (by decide) (by decide) (by decide) rfl rfl rfl
  exact ⟨h.1, h.2.1.trans (by rfl), h.2.2⟩

/-!  C6. -/

/-- C6 (amended): createTable fails with the table-exists error when the unit
already exists (for a non-empty table name); insert, select, update, delete
and migrate fail with the table-not-found error when the unit does not exist;
addIndex, addColumn and removeColumn read the missing unit without a check and
fail with the raw filesystem error instead. -/
theorem existence_errors :
    (∀ (env : Env) (db : Database) (t : String) (td : TableData)
        (cols : List (String × ColInput)) (rels : List (String × Rel)) (copts : CreateOptions),
        t ≠ "" → db.lookup t = some td →
        createTable env db t cols rels copts = .error (.err (tableExistsMsg t)))
    ∧ (∀ (env : Env) (db : Database) (t : String) (row : Row), db.lookup t = none →
        insert env db t row = .error (.err (tableNotFoundMsg t)))
    ∧ (∀ (env : Env) (db : Database) (t : String) (opts : SelectOptions), db.lookup t = none →
        select env db t opts = .error (.err (tableNotFoundMsg t)))
    ∧ (∀ (env : Env) (db : Database) (t : String) (ups : List (String × Value)) (w : WhereEq),
        db.lookup t = none →
        update env db t ups w = .error (.err (tableNotFoundMsg t)))
    ∧ (∀ (db : Database) (t : String) (w : WhereEq) (c : Bool), db.lookup t = none →
        delete db t w c = .error (.err (tableNotFoundMsg t)))
    ∧ (∀ (db : Database) (t : String) (fn : Row → Nat → List Row → Option Row),
        db.lookup t = none →
        migrate db t fn = .error (.err (tableNotFoundMsg t)))
    ∧ (∀ (env : Env) (db : Database) (t f : String) (o : Option String) (u : Option Bool),
        db.lookup t = none →
        addIndex env db t f o u = .error (.enoent t))
    ∧ (∀ (db : Database) (t c : String) (d : ColumnDef), db.lookup t = none →
        addColumn db t c d = .error (.enoent t))
    ∧ (∀ (db : Database) (t c : String), db.lookup t = none →
        removeColumnOp db t c = .error (.enoent t)) := by
  refine ⟨?_, ?_, ?_, ?_, ?_, ?_, ?_, ?_, ?_⟩
  · intro env db t td cols rels copts hne hlk
    unfold createTable
    rw [if_neg hne]
    simp only [hlk]
  · intro env db t row h; unfold insert; simp only [h]
  · intro env db t opts h; unfold select; simp only [h]
  · intro env db t ups w h; unfold update; simp only [h]
  · intro db t w c h; unfold delete; simp only [h]
  · intro db t fn h; unfold migrate; simp only [h]
  · intro env db t f o u h; unfold addIndex; simp only [h]
  · intro db t c d h; unfold addColumn; simp only [h]
  · intro db t c h; unfold removeColumnOp; simp only [h]

/-- Witness for C6 at concrete inputs: each operation produces the stated
error. -/
theorem existence_errors_witness :
    createTable env0 dbExist "x" [] [] {} = .error (.err (tableExistsMsg "x"))
    ∧ insert env0 [] "y" [] = .error (.err (tableNotFoundMsg "y"))
    ∧ select env0 [] "y" {} = .error (.err (tableNotFoundMsg "y"))
    ∧ update env0 [] "y" [] [] = .error (.err (tableNotFoundMsg "y"))
    ∧ delete [] "y" [] false = .error (.err (tableNotFoundMsg "y"))
    ∧ migrate [] "y" (fun r _ _ => some r) = .error (.err (tableNotFoundMsg "y"))
    ∧ addIndex env0 [] "y" "f" none none = .error (.enoent "y")
    ∧ addColumn [] "y" "c" {} = .error (.enoent "y")
    ∧ removeColumnOp [] "y" "c" = .error (.enoent "y") :=
  ⟨existence_errors.1 env0 dbExist "x" tdEmpty [] [] {} (by decide) rfl,
   existence_errors.2.1 env0 [] "y" [] rfl,
   existence_errors.2.2.1 env0 [] "y" {} rfl,
   existence_errors.2.2.2.1 env0 [] "y" [] [] rfl,
   existence_errors.2.2.2.2.1 [] "y" [] false rfl,
   existence_errors.2.2.2.2.2.1 [] "y" (fun r _ _ => some r) rfl,
   existence_errors.2.2.2.2.2.2.1 env0 [] "y" "f" none none rfl,
   existence_errors.2.2.2.2.2.2.2.1 [] "y" "c" {} rfl,
   existence_errors.2.2.2.2.2.2.2.2 [] "y" "c" rfl⟩

/-- Counterexample for C6 as stated: addIndex on a missing table unit fails
with the filesystem error, which is not the table-not-found error the claim
requires. -/
theorem addIndex_not_tableNotFound :
    addIndex env0 [] "missing" "f" none none = .error (.enoent "missing")
    ∧ DbError.enoent "missing" ≠ DbError.err (tableNotFoundMsg "missing") :=
  ⟨rfl, by decide⟩

/-!  C7. -/

/-- Running the batched-insert loop past an all-successful prefix continues
from the state and index the prefix produced. -/
theorem insertManyAux_append (envF : Nat → Env) (t : String) :
    ∀ (xs : List Row) (i : Nat) (d : Database) (acc : List Row)
      (dbG : Database) (res : List Row),
    insertManyAux envF t i d xs acc = (dbG, .ok res) →
    ∀ ys : List Row,
      insertManyAux envF t i d (xs ++ ys) acc
        = insertManyAux envF t (i + xs.length) dbG ys res.reverse := by
  intro xs
  induction xs with
  | nil =>
    intro i d acc dbG res h ys
    simp only [insertManyAux] at h
    have hd : d = dbG := congrArg Prod.fst h
    have hr : acc.reverse = res := by
      have h2 := congrArg Prod.snd h
      simpa using h2
    subst hd
    rw [← hr, List.reverse_reverse]
    simp
  | cons x xs ih =>
    intro i d acc dbG res h ys
    simp only [insertManyAux] at h
    simp only [List.cons_append, insertManyAux]
    cases hins : insert (envF i) d t x with
    | error e =>
      simp only [hins] at h
      have h2 := congrArg Prod.snd h
      simp at h2
    | ok p =>
      obtain ⟨d2, vr⟩ := p
      simp only [hins] at h
      simp only [hins, List.append_eq]
      have h3 := ih (i + 1) d2 (vr :: acc) dbG res h ys
      rw [h3]
      have hidx : i + 1 + xs.length = i + (x :: xs).length := by
        simp [List.length_cons]
        omega
      rw [hidx]

/-- C7 (amended): the batched insert runs strictly sequentially, each element
insert completing and persisting before the next; when an element fails, the
database keeps the state produced by the earlier elements and the outcome
handed to the caller is the failing element error itself, with no
completed-versus-attempted count. -/
theorem insertMany_sequential :
    (∀ (envF : Nat → Env) (t : String) (i : Nat) (d : Database) (r : Row)
        (rs : List Row) (acc : List Row) (e : DbError),
        insert (envF i) d t r = .error e →
        insertManyAux envF t i d (r :: rs) acc = (d, .error e))
    ∧ (∀ (envF : Nat → Env) (t : String) (i : Nat) (d : Database) (r : Row)
        (rs : List Row) (acc : List Row) (d2 : Database) (vr : Row),
        insert (envF i) d t r = .ok (d2, vr) →
        insertManyAux envF t i d (r :: rs) acc
          = insertManyAux envF t (i + 1) d2 rs (vr :: acc))
    ∧ (∀ (envF : Nat → Env) (t : String) (db : Database) (good : List Row) (r : Row)
        (rest : List Row) (dbG : Database) (res : List Row) (e : DbError),
        insertManyAux envF t 0 db good [] = (dbG, .ok res) →
        insert (envF good.length) dbG t r = .error e →
        insertMany envF db t (good ++ r :: rest) = (dbG, .error e)) := by
  refine ⟨?_, ?_, ?_⟩
  · intro envF t i d r rs acc e h
    simp only [insertManyAux, h]
  · intro envF t i d r rs acc d2 vr h
    simp only [insertManyAux, h]
  · intro envF t db good r rest dbG res e h1 h2
    unfold insertMany
    rw [insertManyAux_append envF t good 0 db [] dbG res h1 (r :: rest)]
    have h0 : (0 : Nat) + good.length = good.length := by omega
    rw [h0]
    simp only [insertManyAux, h2]

/-- Witness for C7: the two-element batch whose second element lacks the
required field keeps the database produced by the first element and returns
the second element validation error. -/
theorem insertMany_sequential_witness :
    insertMany (fun _ => env0) c7Db "t7" [[("a", .str "x")], []]
      = (c7DbG, .error (.validation [requiredMsg "a"])) := by
  exact insertMany_sequential.2.2 (fun _ => env0) "t7" c7Db [[("a", .str "x")]] [] []
    c7DbG c7Res (.validation [requiredMsg "a"]) rfl rfl

/-- Counterexample for C7 as stated: at the concrete failing batch the caller
receives the raw validation error of the failing element, not a count of
completed versus attempted items, while the first element stays persisted. -/
theorem insertMany_count_counterexample :
    (insertMany (fun _ => env0) c7Db "t7" [[("a", .str "x")], []]).2
      = .error (.validation [requiredMsg "a"])
    ∧ (match (insertMany (fun _ => env0) c7Db "t7" [[("a", .str "x")], []]).1.lookup "t7" with
       | some td => td.rows.length
       | none => 0) = 1 :=
  ⟨rfl, rfl⟩

/-!  C8 and C10. -/

/-- slice with non-negative start and extent is drop then take. -/
theorem jsSlice_drop_take (l : List Row) (s k : Int) (hs : 0 ≤ s) (hk : 0 ≤ k) :
    jsSlice l s (s + k) = (l.drop s.toNat).take k.toNat := by
  simp only [jsSlice]
  rw [if_neg (by omega), if_neg (by omega), List.drop_take]
  by_cases hsl : s ≤ (l.length : Int)
  · rw [min_eq_left hsl]
    by_cases hek : s + k ≤ (l.length : Int)
    · rw [min_eq_left hek]
      have h1 : (s + k).toNat - s.toNat = k.toNat := by omega
      rw [h1]
    · rw [min_eq_right (by omega)]
      apply List.take_eq_take.mpr
      rw [List.length_drop]
      omega
  · rw [min_eq_right (by omega : (l.length : Int) ≤ s),
        min_eq_right (by omega : (l.length : Int) ≤ s + k)]
    have h2 : ((l.length : Int)).toNat = l.length := by omega
    rw [h2, List.drop_length, List.drop_eq_nil_of_le (by omega)]
    simp

/-- C8: pagination in select applies the offset (default 0) and then the
limit (a falsy limit defaulting to the full remaining count): with the stage
active, the result is exactly the drop-then-take window of the row sequence. -/
theorem select_pagination (env : Env) (db : Database) (t : String) (td : TableData)
    (limit offset : Option Int) (hlk : db.lookup t = some td)
    (henc : td.options.encryption.fields = none)
    (htr : (truthyOpt limit || truthyOpt offset) = true)
    (ho : 0 ≤ offset.getD 0) (hl : 0 ≤ effectiveLimit limit td.rows.length) :
    select env db t { limit := limit, offset := offset } =
      .ok ((td.rows.drop (offset.getD 0).toNat).take
        (effectiveLimit limit td.rows.length).toNat) := by
  unfold select
  simp only [hlk]
  unfold decryptStage
  simp only [henc]
  unfold paginate
  simp only [htr, if_true]
  exact congrArg Except.ok
    (jsSlice_drop_take td.rows (offset.getD 0) (effectiveLimit limit td.rows.length) ho hl)

/-- Witness for C8: ten rows with offset 3 and limit 4 return exactly the rows
at positions 3 through 6. -/
theorem select_pagination_witness :
    select env0 dbPag "p" { limit := some 4, offset := some 3 } =
      .ok [[("n", .int 3)], [("n", .int 4)], [("n", .int 5)], [("n", .int 6)]] := by
  exact (select_pagination env0 dbPag "p" tdPag (some 4) (some 3) rfl rfl rfl
    (by decide) (by decide)).trans (by rfl)

/-- C10: a select whose limit is 0 and whose offset is absent or 0 skips the
pagination stage entirely, both options being falsy, and returns every row of
the table. -/
theorem select_limit_zero_all (env : Env) (db : Database) (t : String) (td : TableData)
    (hlk : db.lookup t = some td) (henc : td.options.encryption.fields = none) :
    select env db t { limit := some 0 } = .ok td.rows
    ∧ select env db t { limit := some 0, offset := some 0 } = .ok td.rows := by
  constructor <;>
  · unfold select
    simp only [hlk]
    unfold decryptStage
    simp only [henc]
    unfold paginate
    simp [truthyOpt]

/-- Witness for C10: the ten-row table returns all ten rows under limit 0. -/
theorem select_limit_zero_witness :
    select env0 dbPag "p" { limit := some 0 } = .ok rows10
    ∧ select env0 dbPag "p" { limit := some 0, offset := some 0 } = .ok rows10 :=
  ⟨(select_limit_zero_all env0 dbPag "p" tdPag rfl rfl).1,
   (select_limit_zero_all env0 dbPag "p" tdPag rfl rfl).2⟩

/-!  C5. -/

/-- C5: the join stage of select, spec by spec: a missing target table empties
the result under inner and leaves it untouched under left; with the target
present, a row with no matching foreign rows gets null under the alias for
left and is dropped for inner, one match attaches the single record and
several matches attach the full list. -/
theorem join_stage_cases (env : Env) (db : Database) (t : String) (rows : List Row)
    (j : JoinSpec) (ty aliasName : String)
    (hty : ty = j.jtype.getD "left") (hal : aliasName = j.asName.getD j.table) :
    (∀ td, db.lookup t = some td → td.options.encryption.fields = none →
        select env db t { join := some [j] } = .ok (applyJoins db td.rows [j]))
    ∧ (db.lookup j.table = none →
        applyJoins db rows [j] = (if ty == "inner" then [] else rows))
    ∧ (∀ jd, db.lookup j.table = some jd →
        applyJoins db rows [j] = rows.filterMap (fun row =>
          match jd.rows.filter (fun jrow =>
              oveq (getField jrow j.onForeign) (getField row j.onLocal)) with
          | [] => if ty == "inner" then none else some (setField row aliasName .null)
          | [r] => some (setField row aliasName (.obj r))
          | r1 :: r2 :: rs =>
              some (setField row aliasName (.arr ((r1 :: r2 :: rs).map Value.obj))))) := by
  subst hty hal
  refine ⟨?_, ?_, ?_⟩
  · intro td hlk henc
    unfold select
    simp only [hlk]
    unfold decryptStage
    simp only [henc]
    unfold paginate
    simp [truthyOpt]
  · intro hnone
    unfold applyJoins
    simp only [hnone]
    cases h : (j.jtype.getD "left") == "inner" <;> simp [h, applyJoins]
  · intro jd hjd
    unfold applyJoins
    simp only [hjd]
    show rows.filterMap _ = rows.filterMap _
    apply List.filterMap_congr
    intro row _
    cases hrel : jd.rows.filter (fun jrow =>
        oveq (getField jrow j.onForeign) (getField row j.onLocal)) with
    | nil =>
      cases h2 : (j.jtype.getD "left") == "inner" <;> simp [hrel, h2]
    | cons r rest =>
      cases rest with
      | nil => simp [hrel]
      | cons r2 rs => simp [hrel]

/-- Witness for C5: the three posts joined left against users produce the
single record, the two-record list, and null respectively. -/
theorem join_stage_witness :
    applyJoins dbJoin postsRows [joinSpecL] =
      [[("pid", .int 1), ("user_id", .str "u1"),
        ("author", .obj [("id", .str "u1"), ("nm", .str "A")])],
       [("pid", .int 2), ("user_id", .str "u2"),
        ("author", .arr [.obj [("id", .str "u2"), ("nm", .str "B")],
                         .obj [("id", .str "u2"), ("nm", .str "B2")]])],
       [("pid", .int 3), ("user_id", .str "u9"), ("author", .null)]] := by
  exact ((join_stage_cases env0 dbJoin "posts" postsRows joinSpecL "left" "author"
    rfl rfl).2.2 usersTd rfl).trans (by rfl)

end Dapbase
